import Mathlib

/-!
Shallow embedding of `query_builder.go` from the `gh` package.

The builder accumulates a base query string, conditionally appends WHERE
predicates with bound arguments, appends GROUP BY / ORDER BY clauses, and
returns the accumulated string together with the argument list.
-/

/-- A Go `interface{}` value as passed to `Where`: the cases the claims need —
the nil interface, a `string`, an `int`, and a value of a distinct
string-like named type (type name together with its underlying string). -/
inductive GoValue where
  | nil : GoValue
  | str : String → GoValue
  | int : Int → GoValue
  | typedStr : String → String → GoValue
deriving DecidableEq, Repr

/-- Go's `value == ""` where `value : interface{}`: the untyped constant `""`
is typed as `string`, and interface equality holds only when the dynamic type
and the dynamic value both match, so only an interface holding a `string`
whose value is `""` compares equal; a nil interface or a distinct named
string type holding `""` compares unequal. -/
def GoValue.eqEmptyString : GoValue → Bool
  | .str s => s == ""
  | _ => false

/-- The `QueryBuilder` struct: the accumulated query text and argument list. -/
structure QueryBuilder where
  query : String
  args : List GoValue
deriving DecidableEq, Repr

/-- `NewQueryBuilder(baseQuery)`: base query, empty argument slice. -/
def NewQueryBuilder (baseQuery : String) : QueryBuilder :=
  { query := baseQuery, args := [] }

/-- `Where(condition, value)`: skipped when `value == ""`; otherwise appends
`" AND "` or `" WHERE "` plus the condition depending on `len(qb.args) > 0`,
and appends the value to the arguments. -/
def QueryBuilder.Where (qb : QueryBuilder) (condition : String) (value : GoValue) :
    QueryBuilder :=
  if value.eqEmptyString then qb
  else if qb.args.length > 0 then
    { query := qb.query ++ " AND " ++ condition, args := qb.args ++ [value] }
  else
    { query := qb.query ++ " WHERE " ++ condition, args := qb.args ++ [value] }

/-- `GroupBy(columns...)`: when the column list is non-empty, appends
`" GROUP BY "` plus the columns joined by `", "` (Go `strings.Join`). -/
def QueryBuilder.GroupBy (qb : QueryBuilder) (columns : List String) : QueryBuilder :=
  if columns.length > 0 then
    { qb with query := qb.query ++ " GROUP BY " ++ String.intercalate ", " columns }
  else qb

/-- `OrderBy(columns...)`: when the column list is non-empty, appends
`" ORDER BY "` plus the columns joined by `", "`. -/
def QueryBuilder.OrderBy (qb : QueryBuilder) (columns : List String) : QueryBuilder :=
  if columns.length > 0 then
    { qb with query := qb.query ++ " ORDER BY " ++ String.intercalate ", " columns }
  else qb

/-- `Build()`: returns the accumulated query and argument list. -/
def QueryBuilder.Build (qb : QueryBuilder) : String × List GoValue :=
  (qb.query, qb.args)

/-- Apply a left-to-right sequence of `Where` calls to a builder. -/
def applyWheres (qb : QueryBuilder) : List (String × GoValue) → QueryBuilder
  | [] => qb
  | (c, v) :: rest => applyWheres (qb.Where c v) rest

/-- Number of occurrences of a character in a string (used to count `?`
placeholders in query fragments). -/
def countChar (ch : Char) (s : String) : Nat :=
  s.toList.count ch

/-- The text contributed by a left-to-right sequence of accepted condition
fragments: the boolean records whether the argument list was already
non-empty, which selects `" WHERE "` for the first fragment and `" AND "`
for all subsequent fragments. -/
def renderClauses : Bool → List String → String
  | _, [] => ""
  | true, c :: rest => " AND " ++ c ++ renderClauses true rest
  | false, c :: rest => " WHERE " ++ c ++ renderClauses true rest

lemma eqEmptyString_iff (v : GoValue) :
    v.eqEmptyString = true ↔ v = GoValue.str "" := by
  cases v <;> simp [GoValue.eqEmptyString]

lemma where_skipped (qb : QueryBuilder) (c : String) (v : GoValue)
    (hv : v.eqEmptyString = true) : qb.Where c v = qb := by
  simp [QueryBuilder.Where, hv]

lemma where_accepted (qb : QueryBuilder) (c : String) (v : GoValue)
    (hv : v.eqEmptyString = false) :
    qb.Where c v
      = { query := qb.query ++ (if qb.args = [] then " WHERE " else " AND ") ++ c,
          args := qb.args ++ [v] } := by
  cases hargs : qb.args with
  | nil => simp [QueryBuilder.Where, hv, hargs]
  | cons a as => simp [QueryBuilder.Where, hv, hargs]

lemma applyWheres_invariant (calls : List (String × GoValue)) (qb : QueryBuilder) :
    (applyWheres qb calls).args
      = qb.args ++ (calls.filter fun p => !p.2.eqEmptyString).map Prod.snd
    ∧ (applyWheres qb calls).query
      = qb.query ++ renderClauses (!qb.args.isEmpty)
          ((calls.filter fun p => !p.2.eqEmptyString).map Prod.fst) := by
  induction calls generalizing qb with
  | nil => simp [applyWheres, renderClauses]
  | cons hd tl ih =>
    obtain ⟨c, v⟩ := hd
    cases hv : v.eqEmptyString with
    | true =>
      have hskip := where_skipped qb c v hv
      simpa [applyWheres, hskip, hv] using ih qb
    | false =>
      obtain ⟨iha, ihq⟩ := ih (qb.Where c v)
      rw [where_accepted qb c v hv] at iha ihq
      have hstep : applyWheres qb ((c, v) :: tl) = applyWheres (qb.Where c v) tl := rfl
      rw [hstep, where_accepted qb c v hv]
      constructor
      · simpa [hv] using iha
      · cases hargs : qb.args with
        | nil =>
          simp only [hargs] at ihq
          simpa [hv, hargs, renderClauses, String.append_assoc] using ihq
        | cons a as =>
          simp only [hargs] at ihq
          simpa [hv, hargs, renderClauses, String.append_assoc] using ihq

lemma countChar_append (ch : Char) (s t : String) :
    countChar ch (s ++ t) = countChar ch s + countChar ch t := by
  simp [countChar]

lemma countChar_renderClauses (frags : List String) (b : Bool)
    (h : ∀ f ∈ frags, countChar '?' f = 1) :
    countChar '?' (renderClauses b frags) = frags.length := by
  induction frags generalizing b with
  | nil => cases b <;> simp [renderClauses, countChar]
  | cons f fs ih =>
    have hf := h f (List.mem_cons_self f fs)
    have hrest : ∀ g ∈ fs, countChar '?' g = 1 :=
      fun g hg => h g (List.mem_cons_of_mem f hg)
    have hAnd : countChar '?' " AND " = 0 := by decide
    have hWhere : countChar '?' " WHERE " = 0 := by decide
    cases b <;>
      simp [renderClauses, countChar_append, hf, ih true hrest, hAnd, hWhere] <;>
      omega

/-- C1: starting from `NewQueryBuilder "SELECT a FROM t"`, the call sequence
`Where "x=?" ""`, `Where "y=?" "5"`, `Where "z=?" ""`, `Where "w=?" "hi"`
followed by `Build` returns the query
`"SELECT a FROM t WHERE y=? AND w=?"` with arguments `["5", "hi"]`. -/
theorem c1_mixed_filter_scenario :
    (((((NewQueryBuilder "SELECT a FROM t").Where "x=?" (.str "")).Where
      "y=?" (.str "5")).Where "z=?" (.str "")).Where "w=?" (.str "hi")).Build
      = ("SELECT a FROM t WHERE y=? AND w=?", [.str "5", .str "hi"]) := by
  decide

/-- C2: for every builder state and every accepted `Where` call (value not the
empty-string sentinel), the appended connector is `" WHERE "` exactly when the
argument list is currently empty and `" AND "` otherwise, and the value is
appended to the arguments; the connector choice depends only on the current
argument list, never on how many `Where` calls were made. -/
theorem c2_connector_selection (qb : QueryBuilder) (c : String) (v : GoValue)
    (hv : v.eqEmptyString = false) :
    (qb.Where c v).query
      = qb.query ++ (if qb.args = [] then " WHERE " else " AND ") ++ c
    ∧ (qb.Where c v).args = qb.args ++ [v] := by
  rw [where_accepted qb c v hv]
  exact ⟨rfl, rfl⟩

/-- Witness for C2 at a concrete accepted call on a fresh builder. -/
theorem c2_connector_selection_witness :
    (GoValue.str "5").eqEmptyString = false
    ∧ (((NewQueryBuilder "Q").Where "a=?" (.str "5")).query
        = (NewQueryBuilder "Q").query
          ++ (if (NewQueryBuilder "Q").args = [] then " WHERE " else " AND ") ++ "a=?"
      ∧ ((NewQueryBuilder "Q").Where "a=?" (.str "5")).args
        = (NewQueryBuilder "Q").args ++ [.str "5"]) :=
  ⟨by decide, c2_connector_selection (NewQueryBuilder "Q") "a=?" (.str "5") (by decide)⟩

/-- C3: calling `Where` with the empty string as value is a complete no-op:
the builder is returned exactly unchanged, for every state and fragment. -/
theorem c3_empty_value_noop (qb : QueryBuilder) (c : String) :
    qb.Where c (GoValue.str "") = qb :=
  where_skipped qb c _ rfl

/-- C4: the argument list produced by `Build` after any sequence of `Where`
calls is exactly the values of the accepted (non-empty-value) calls in
left-to-right order; the query is the base query followed by the accepted
fragments rendered in that same order; and when every accepted fragment
contains exactly one `?` placeholder, the number of `?` occurrences added to
the query equals the number of returned arguments, so placeholder order
matches argument order. -/
theorem c4_argument_order (Q : String) (calls : List (String × GoValue))
    (h : ∀ p ∈ calls, p.2.eqEmptyString = false → countChar '?' p.1 = 1) :
    ((applyWheres (NewQueryBuilder Q) calls).Build).2
      = (calls.filter fun p => !p.2.eqEmptyString).map Prod.snd
    ∧ ((applyWheres (NewQueryBuilder Q) calls).Build).1
      = Q ++ renderClauses false ((calls.filter fun p => !p.2.eqEmptyString).map Prod.fst)
    ∧ countChar '?' ((applyWheres (NewQueryBuilder Q) calls).Build).1
      = countChar '?' Q + ((applyWheres (NewQueryBuilder Q) calls).Build).2.length := by
  obtain ⟨ha, hq⟩ := applyWheres_invariant calls (NewQueryBuilder Q)
  have ha' : ((applyWheres (NewQueryBuilder Q) calls).Build).2
      = (calls.filter fun p => !p.2.eqEmptyString).map Prod.snd := by
    simpa [QueryBuilder.Build, NewQueryBuilder] using ha
  have hq' : ((applyWheres (NewQueryBuilder Q) calls).Build).1
      = Q ++ renderClauses false
          ((calls.filter fun p => !p.2.eqEmptyString).map Prod.fst) := by
    simpa [QueryBuilder.Build, NewQueryBuilder] using hq
  refine ⟨ha', hq', ?_⟩
  have hfrag : ∀ f ∈ (calls.filter fun p => !p.2.eqEmptyString).map Prod.fst,
      countChar '?' f = 1 := by
    intro f hf
    simp only [List.mem_map, List.mem_filter] at hf
    obtain ⟨p, ⟨hp, hpv⟩, rfl⟩ := hf
    exact h p hp (by simpa using hpv)
  rw [hq', ha', countChar_append,
    countChar_renderClauses _ false hfrag]
  simp

/-- Witness for C4 on a concrete call sequence with one skipped call. -/
theorem c4_argument_order_witness :
    (∀ p ∈ [("y=?", GoValue.str "5"), ("x=?", GoValue.str ""), ("w=?", GoValue.str "hi")],
      p.2.eqEmptyString = false → countChar '?' p.1 = 1)
    ∧ (((applyWheres (NewQueryBuilder "SELECT a FROM t")
          [("y=?", GoValue.str "5"), ("x=?", GoValue.str ""), ("w=?", GoValue.str "hi")]).Build).2
        = ([("y=?", GoValue.str "5"), ("x=?", GoValue.str ""), ("w=?", GoValue.str "hi")].filter
            fun p => !p.2.eqEmptyString).map Prod.snd
      ∧ ((applyWheres (NewQueryBuilder "SELECT a FROM t")
          [("y=?", GoValue.str "5"), ("x=?", GoValue.str ""), ("w=?", GoValue.str "hi")]).Build).1
        = "SELECT a FROM t" ++ renderClauses false
            (([("y=?", GoValue.str "5"), ("x=?", GoValue.str ""), ("w=?", GoValue.str "hi")].filter
              fun p => !p.2.eqEmptyString).map Prod.fst)
      ∧ countChar '?' (((applyWheres (NewQueryBuilder "SELECT a FROM t")
          [("y=?", GoValue.str "5"), ("x=?", GoValue.str ""), ("w=?", GoValue.str "hi")]).Build).1)
        = countChar '?' "SELECT a FROM t"
          + (((applyWheres (NewQueryBuilder "SELECT a FROM t")
              [("y=?", GoValue.str "5"), ("x=?", GoValue.str ""), ("w=?", GoValue.str "hi")]).Build).2).length) :=
  ⟨by decide, c4_argument_order "SELECT a FROM t"
    [("y=?", GoValue.str "5"), ("x=?", GoValue.str ""), ("w=?", GoValue.str "hi")] (by decide)⟩

/-- C5: `GroupBy` with an empty column list is a no-op; with a non-empty list
it appends exactly `" GROUP BY "` plus the columns joined by `", "` in the
supplied order, leaving the arguments unchanged; `OrderBy` satisfies the same
contract with `" ORDER BY "`; neither is guarded against repetition, since
the contract holds for every builder state, including one that already
carries such a clause. -/
theorem c5_groupby_orderby_contract (qb : QueryBuilder) (cols : List String)
    (h : cols ≠ []) :
    qb.GroupBy [] = qb
    ∧ qb.OrderBy [] = qb
    ∧ qb.GroupBy cols
      = { query := qb.query ++ " GROUP BY " ++ String.intercalate ", " cols,
          args := qb.args }
    ∧ qb.OrderBy cols
      = { query := qb.query ++ " ORDER BY " ++ String.intercalate ", " cols,
          args := qb.args } := by
  have hlen : cols.length > 0 := List.length_pos.mpr h
  refine ⟨?_, ?_, ?_, ?_⟩
  · simp [QueryBuilder.GroupBy]
  · simp [QueryBuilder.OrderBy]
  · simp [QueryBuilder.GroupBy, hlen]
  · simp [QueryBuilder.OrderBy, hlen]

/-- Witness for C5 at a concrete builder and two-column list. -/
theorem c5_groupby_orderby_contract_witness :
    (["a", "b"] : List String) ≠ []
    ∧ ((NewQueryBuilder "Q").GroupBy [] = NewQueryBuilder "Q"
      ∧ (NewQueryBuilder "Q").OrderBy [] = NewQueryBuilder "Q"
      ∧ (NewQueryBuilder "Q").GroupBy ["a", "b"]
        = { query := (NewQueryBuilder "Q").query ++ " GROUP BY "
              ++ String.intercalate ", " ["a", "b"],
            args := (NewQueryBuilder "Q").args }
      ∧ (NewQueryBuilder "Q").OrderBy ["a", "b"]
        = { query := (NewQueryBuilder "Q").query ++ " ORDER BY "
              ++ String.intercalate ", " ["a", "b"],
            args := (NewQueryBuilder "Q").args }) :=
  ⟨by decide, c5_groupby_orderby_contract (NewQueryBuilder "Q") ["a", "b"] (by decide)⟩

/-- C6: the skip sentinel is literally the empty string of type `string`:
`Where` returns the builder unchanged exactly when the value is the string
`""`, and any other value — including the numeric zero — is accepted,
appending a connector plus the fragment and recording the value. -/
theorem c6_sentinel_literal_empty_string (qb : QueryBuilder) (c : String)
    (v : GoValue) :
    qb.Where c v
      = (if v = GoValue.str "" then qb
         else { query := qb.query ++ (if qb.args = [] then " WHERE " else " AND ") ++ c,
                args := qb.args ++ [v] })
    ∧ (qb.Where c (GoValue.int 0)).args = qb.args ++ [GoValue.int 0] := by
  constructor
  · by_cases hv : v = GoValue.str ""
    · rw [if_pos hv, hv]
      exact where_skipped qb c _ rfl
    · rw [if_neg hv, where_accepted qb c v ?_]
      cases v with
      | str s =>
        have hs : s ≠ "" := fun hs => hv (by rw [hs])
        simp [GoValue.eqEmptyString, hs]
      | nil => rfl
      | int n => rfl
      | typedStr t s => rfl
  · rw [where_accepted qb c (GoValue.int 0) rfl]

/-- C7: `Build` on a fresh builder returns the base query unmodified together
with an empty argument list, for every base query. -/
theorem c7_fresh_builder_identity (Q : String) :
    (NewQueryBuilder Q).Build = (Q, []) := rfl

/-- C8: every operation only extends the state — after `Where`, `GroupBy` or
`OrderBy` the old query is an initial segment of the new query and the old
argument list an initial segment of the new one (`GroupBy`/`OrderBy` leave
the arguments exactly unchanged) — and `Build` reads the state without
modifying it, returning the same pair on every call. -/
theorem c8_append_only_snapshot (qb : QueryBuilder) (c : String) (v : GoValue)
    (cols : List String) :
    (∃ t, (qb.Where c v).query = qb.query ++ t)
    ∧ (∃ l, (qb.Where c v).args = qb.args ++ l)
    ∧ (∃ t, (qb.GroupBy cols).query = qb.query ++ t)
    ∧ (qb.GroupBy cols).args = qb.args
    ∧ (∃ t, (qb.OrderBy cols).query = qb.query ++ t)
    ∧ (qb.OrderBy cols).args = qb.args
    ∧ qb.Build = (qb.query, qb.args) := by
  refine ⟨?_, ?_, ?_, ?_, ?_, ?_, rfl⟩
  · cases hv : v.eqEmptyString with
    | true => exact ⟨"", by rw [where_skipped qb c v hv]; simp⟩
    | false =>
      refine ⟨(if qb.args = [] then " WHERE " else " AND ") ++ c, ?_⟩
      rw [where_accepted qb c v hv]
      simp [String.append_assoc]
  · cases hv : v.eqEmptyString with
    | true => exact ⟨[], by rw [where_skipped qb c v hv]; simp⟩
    | false => exact ⟨[v], by rw [where_accepted qb c v hv]⟩
  · cases hcols : cols with
    | nil => exact ⟨"", by simp [QueryBuilder.GroupBy]⟩
    | cons a as =>
      refine ⟨" GROUP BY " ++ String.intercalate ", " (a :: as), ?_⟩
      simp [QueryBuilder.GroupBy, String.append_assoc]
  · unfold QueryBuilder.GroupBy
    split <;> rfl
  · cases hcols : cols with
    | nil => exact ⟨"", by simp [QueryBuilder.OrderBy]⟩
    | cons a as =>
      refine ⟨" ORDER BY " ++ String.intercalate ", " (a :: as), ?_⟩
      simp [QueryBuilder.OrderBy, String.append_assoc]
  · unfold QueryBuilder.OrderBy
    split <;> rfl

/-- C9: every operation of the builder is total — for every input, including
malformed fragments and a repeated `GroupBy`, each operation produces a
result; there is no error return anywhere in the interface. -/
theorem c9_totality (Q c : String) (v : GoValue) (cols : List String)
    (qb : QueryBuilder) :
    (∃ r : QueryBuilder, NewQueryBuilder Q = r)
    ∧ (∃ r : QueryBuilder, qb.Where c v = r)
    ∧ (∃ r : QueryBuilder, qb.GroupBy cols = r)
    ∧ (∃ r : QueryBuilder, (qb.GroupBy cols).GroupBy cols = r)
    ∧ (∃ r : QueryBuilder, qb.OrderBy cols = r)
    ∧ (∃ r : String × List GoValue, qb.Build = r) :=
  ⟨⟨_, rfl⟩, ⟨_, rfl⟩, ⟨_, rfl⟩, ⟨_, rfl⟩, ⟨_, rfl⟩, ⟨_, rfl⟩⟩

/-- C10: nil is not the sentinel: `Where` with the nil interface value is
accepted — connector plus fragment appended, nil recorded as an argument —
and likewise a value of a distinct string-like type holding `""`, because the
skip comparison `value == ""` matches only a `string` holding `""`. -/
theorem c10_nil_not_sentinel (qb : QueryBuilder) (c : String) (t : String) :
    qb.Where c GoValue.nil
      = { query := qb.query ++ (if qb.args = [] then " WHERE " else " AND ") ++ c,
          args := qb.args ++ [GoValue.nil] }
    ∧ qb.Where c (GoValue.typedStr t "")
      = { query := qb.query ++ (if qb.args = [] then " WHERE " else " AND ") ++ c,
          args := qb.args ++ [GoValue.typedStr t ""] } :=
  ⟨where_accepted qb c GoValue.nil rfl,
   where_accepted qb c (GoValue.typedStr t "") rfl⟩
